import Mathlib

/-!
Shallow embedding of the `image-text-composer` repository.

Two modules are modelled:

* `Editor`: the canvas editor of `src/app/page.tsx` (component `CanvasEditor`),
  in particular its undo/redo history (`saveHistory`, `undo`, `redo`, `reset`,
  `updateStackStates`, `loadSnapshot`) and the export scaling arithmetic of
  `handleExport` / `handleUpload`.
* `Wallet`: the `sendTransaction` handler of `src/components/wallet/index.js`.

Modelling conventions:

* A history snapshot is the parsed form of the JSON string
  `JSON.stringify({objects: canvas.toJSON(), background: backgroundRef.current})`:
  a `Snapshot` structure with an opaque `objects` serialization and an optional
  background source.  Since every string pushed on a stack by the source is a
  `JSON.stringify` result, parsing a present stack entry always succeeds.
* The JS arrays `undoStack.current` / `redoStack.current` are lists whose cells
  are `Option Snapshot`: `some s` is an ordinary entry, `none` models the JS
  value `undefined` that `Array.prototype.pop()` returns on an empty array and
  that can then be pushed onto the other stack.  `JSON.parse` applied to such a
  cell throws (`JSON.parse(undefined)` is a `SyntaxError`), which the model
  reflects by taking the failure branch of `undoRun` / `redoRun`.
* The top of a stack is the END of the list (`push` appends, `pop` removes the
  last cell, `shift` removes the head), matching the JS array operations.
* `localStorage.getItem("canvasDesign")` is the field `storage`; `none` means
  the key is absent.
* Mutations that happen before a thrown exception persist, exactly as in JS:
  when `JSON.parse` throws inside `undo`, the pops and pushes that already
  happened are kept and `loadSnapshot` / `updateStackStates` do not run.
* The early `if (!canvas) return` guards are outside the model: the model
  describes the component after canvas initialization, where
  `canvasRef.current` is non-null.  Likewise the `isRestoring` re-entrancy
  flag: the model is sequential, each operation runs to completion, so the
  flag is `false` whenever `saveHistory` is triggered by a user edit.
-/

namespace Editor

/-- `MAX_HISTORY` from `CanvasEditor`. -/
def MAX_HISTORY : Nat := 20

/-- The parsed form of a history snapshot string
`JSON.stringify({objects: canvas.toJSON(), background: backgroundRef.current})`:
`objects` is the (opaque) serialization of the canvas contents, `background`
the data-URL of the background image or `null`. -/
structure Snapshot where
  objects : String
  background : Option String
deriving DecidableEq, Repr

/-- A stack cell: `some s` is an ordinary pushed snapshot string, `none` is the
JS value `undefined` (produced by `pop()` on an empty array). -/
abbrev Cell := Option Snapshot

/-- The state of the `CanvasEditor` component that the history operations
touch: the two stacks, the persisted `localStorage["canvasDesign"]` value, the
canvas contents and background reference, and the `canUndo` / `canRedo` /
`hasBackground` React state flags. -/
structure EditorState where
  undoStack : List Cell
  redoStack : List Cell
  storage : Option Snapshot
  canvasObjects : String
  backgroundRef : Option String
  hasBackground : Bool
  canUndo : Bool
  canRedo : Bool
deriving DecidableEq, Repr

/-- The snapshot that would be recorded for the currently displayed canvas
state: `{objects: canvas.toJSON(), background: backgroundRef.current}`. -/
def displayedSnapshot (st : EditorState) : Snapshot :=
  ⟨st.canvasObjects, st.backgroundRef⟩

/-- `stack.push(x); if (stack.length > MAX_HISTORY) stack.shift();` -/
def pushBounded (s : List Cell) (x : Cell) : List Cell :=
  let s1 := s ++ [x]
  if MAX_HISTORY < s1.length then s1.tail else s1

/-- `saveHistory`: serialize the current canvas state, push it on the undo
stack (dropping the oldest entry past `MAX_HISTORY`), persist it to
`localStorage`, and refresh the `canUndo` / `canRedo` flags
(`updateStackStates`).  The redo stack is not touched. -/
def saveHistory (st : EditorState) : EditorState :=
  let snap : Snapshot := displayedSnapshot st
  let u1 := pushBounded st.undoStack (some snap)
  { st with
    undoStack := u1
    storage := some snap
    canUndo := decide (1 < u1.length)
    canRedo := decide (0 < st.redoStack.length) }

/-- A user edit: the canvas contents change to `o` (an `object:modified` /
`object:added` / `object:removed` event), which fires `saveHistory`. -/
def recordEdit (st : EditorState) (o : String) : EditorState :=
  saveHistory { st with canvasObjects := o }

/-- `loadSnapshot`: restore the canvas contents from the snapshot and set the
background reference from its `background` field (`canvas.toJSON()` is always
an object, hence truthy, so `loadFromJSON` always runs).  Stacks, storage and
the stack-state flags are untouched. -/
def loadSnapshot (st : EditorState) (snap : Snapshot) : EditorState :=
  { st with
    canvasObjects := snap.objects
    backgroundRef := snap.background
    hasBackground := snap.background.isSome }

/-- `undo`, including its failure behaviour, paired with a flag telling
whether the `JSON.parse` of the new top of the undo stack succeeded.  The pop
of the undo stack and the bounded push onto the redo stack happen before the
parse, so they persist even when the parse throws; on a throw, `loadSnapshot`
and `updateStackStates` do not run. -/
def undoRun (st : EditorState) : EditorState × Bool :=
  let current : Cell := st.undoStack.getLast?.getD none
  let u1 := st.undoStack.dropLast
  let r1 := pushBounded st.redoStack current
  match u1.getLast? with
  | some (some prev) =>
      let st1 := loadSnapshot { st with undoStack := u1, redoStack := r1 } prev
      ({ st1 with
          canUndo := decide (1 < u1.length)
          canRedo := decide (0 < r1.length) }, true)
  | _ => ({ st with undoStack := u1, redoStack := r1 }, false)

/-- The state after `undo`. -/
def undo (st : EditorState) : EditorState := (undoRun st).1

/-- `redo`, paired with a flag telling whether the `JSON.parse` of the popped
snapshot succeeded (it fails only on an `undefined` cell).  When the redo
stack is empty the function returns early without touching anything. -/
def redoRun (st : EditorState) : EditorState × Bool :=
  if st.redoStack.length = 0 then (st, true)
  else
    let cell : Cell := st.redoStack.getLast?.getD none
    let r1 := st.redoStack.dropLast
    let u1 := pushBounded st.undoStack cell
    match cell with
    | some next =>
        let st1 := loadSnapshot { st with undoStack := u1, redoStack := r1 } next
        ({ st1 with
            canUndo := decide (1 < u1.length)
            canRedo := decide (0 < r1.length) }, true)
    | none => ({ st with undoStack := u1, redoStack := r1 }, false)

/-- The state after `redo`. -/
def redo (st : EditorState) : EditorState := (redoRun st).1

/-- The serialization `canvas.toJSON()` of a cleared canvas
(`canvas.clear()`). -/
def clearedObjects : String := "clearedCanvas"

/-- `reset`: clear the canvas, drop the background reference, empty both
stacks, remove `localStorage["canvasDesign"]` and refresh the flags. -/
def reset (_st : EditorState) : EditorState :=
  { undoStack := []
    redoStack := []
    storage := none
    canvasObjects := clearedObjects
    backgroundRef := none
    hasBackground := false
    canUndo := decide (1 < ([] : List Cell).length)
    canRedo := decide (0 < ([] : List Cell).length) }

/-- The editor operations that drive the history (claim C1 quantifies over
sequences of these). -/
inductive Op where
  | edit (o : String)
  | undo
  | redo
deriving DecidableEq, Repr

/-- One step of the editor. -/
def applyOp (st : EditorState) : Op → EditorState
  | Op.edit o => recordEdit st o
  | Op.undo => undo st
  | Op.redo => redo st

/-- A sequence of editor operations, applied in order. -/
def applyOps (st : EditorState) (ops : List Op) : EditorState :=
  ops.foldl applyOp st

/-- A fabric object as `handleExport` sees it: the four numeric fields that
the export loop rescales.  `none` models an `undefined` field, handled by the
`?? 1` / `?? 0` defaults in the source; JS numbers are modelled as rationals
(the claims are about the exact arithmetic performed, not float rounding). -/
structure FabObject where
  scaleX : Option ℚ
  scaleY : Option ℚ
  left : Option ℚ
  top : Option ℚ
deriving DecidableEq, Repr

/-- The per-object body of the export loop:
`cloned.scaleX = (cloned.scaleX ?? 1) * scaleX` and so on. -/
def cloneScaled (sx sy : ℚ) (o : FabObject) : FabObject :=
  { scaleX := some (o.scaleX.getD 1 * sx)
    scaleY := some (o.scaleY.getD 1 * sy)
    left := some (o.left.getD 0 * sx)
    top := some (o.top.getD 0 * sy) }

/-- The export canvas produced by `handleExport`: its dimensions and its
rescaled objects. -/
structure ExportResult where
  width : ℚ
  height : ℚ
  objects : List FabObject
deriving DecidableEq, Repr

/-- `handleExport`: with `original = imgOriginal.current` and the live canvas
dimensions, compute `scaleX = original.width / canvas.getWidth()`,
`scaleY = original.height / canvas.getHeight()`, rescale every object by
them, and set the export canvas dimensions to the original ones. -/
def handleExport (origW origH canvasW canvasH : ℚ) (objs : List FabObject) :
    ExportResult :=
  let sx := origW / canvasW
  let sy := origH / canvasH
  { width := origW, height := origH, objects := objs.map (cloneScaled sx sy) }

/-- The display scale chosen by `handleUpload` (and `loadSnapshot`):
`img.width > 600 ? 600 / img.width : 1`. -/
def displayScale (w : ℚ) : ℚ := if 600 < w then 600 / w else 1

end Editor

namespace Wallet

/-- The send form of the wallet panel (`sendForm`). -/
structure SendForm where
  «to» : String
  amount : String
  gasPrice : String
deriving DecidableEq, Repr

/-- One entry of the transaction-history list (`transactions`). -/
structure TxRecord where
  hash : String
  «to» : String
  amount : String
  type : String
  timestamp : String
deriving DecidableEq, Repr

/-- The status message shown by `showMessage` (the 5-second timeout that
clears it again is outside the model). -/
structure Message where
  type : String
  text : String
deriving DecidableEq, Repr

/-- The `WalletInterface` state that `sendTransaction` reads or writes:
whether a `web3` instance exists, the connected account, the form, the
history list, the message and the loading flag. -/
structure WalletState where
  web3 : Bool
  account : Option String
  sendForm : SendForm
  transactions : List TxRecord
  message : Message
  loading : Bool
deriving DecidableEq, Repr

/-- An RPC call issued to the injected provider through `web3.eth`. -/
inductive RpcCall where
  | estimateGas
  | sendTx
  | getBalance
deriving DecidableEq, Repr

/-- The outcome of the `try` block of `sendTransaction`, parameterizing the
external world: `ok hash` means `estimateGas` and `sendTransaction` both
succeeded and the receipt carried `hash`; the three failure constructors tell
where the throw happened (`toWei`, `estimateGas`, or the send RPC itself). -/
inductive SendOutcome where
  | ok (txHash : String)
  | invalidAmount (err : String)
  | estimateFailed (err : String)
  | sendFailed (err : String)
deriving DecidableEq, Repr

/-- `showMessage(type, text)`. -/
def showMessage (st : WalletState) (ty tx : String) : WalletState :=
  { st with message := ⟨ty, tx⟩ }

/-- The initial value of the send form, also what it is reset to after a
successful send. -/
def initialSendForm : SendForm := ⟨"", "", "20"⟩

/-- `sendTransaction`: validate (connection, non-empty fields, address
validity via `web3.utils.isAddress`, modelled by the parameter `isAddress`),
then run the `try` block whose external outcome is `outcome`; `now` is the
`new Date().toISOString()` timestamp.  Returns the new state together with
the list of RPC calls issued to the provider, in order. -/
def sendTransaction (st : WalletState) (isAddress : String → Bool)
    (now : String) (outcome : SendOutcome) : WalletState × List RpcCall :=
  if !st.web3 || st.account.isNone then
    (showMessage st "error" "Please connect your wallet first", [])
  else if st.sendForm.«to» = "" || st.sendForm.amount = "" then
    (showMessage st "error" "Please fill in all fields", [])
  else if !isAddress st.sendForm.«to» then
    (showMessage st "error" "Invalid recipient address", [])
  else
    match outcome with
    | SendOutcome.ok txHash =>
        let newTransaction : TxRecord :=
          ⟨txHash, st.sendForm.«to», st.sendForm.amount, "sent", now⟩
        ({ st with
            transactions := newTransaction :: st.transactions
            message := ⟨"success", "Transaction sent successfully! Hash: " ++ txHash⟩
            sendForm := initialSendForm
            loading := false },
         [RpcCall.estimateGas, RpcCall.sendTx, RpcCall.getBalance])
    | SendOutcome.invalidAmount err =>
        ({ showMessage st "error" ("Transaction failed: " ++ err) with
            loading := false }, [])
    | SendOutcome.estimateFailed err =>
        ({ showMessage st "error" ("Transaction failed: " ++ err) with
            loading := false }, [RpcCall.estimateGas])
    | SendOutcome.sendFailed err =>
        ({ showMessage st "error" ("Transaction failed: " ++ err) with
            loading := false }, [RpcCall.estimateGas, RpcCall.sendTx])

end Wallet

namespace Editor

lemma pushBounded_length_le (s : List Cell) (x : Cell)
    (h : s.length ≤ MAX_HISTORY) :
    (pushBounded s x).length ≤ MAX_HISTORY := by
  unfold pushBounded
  dsimp only
  split
  · simp
    omega
  · rename_i hle
    simp at hle ⊢
    omega

lemma pushBounded_eq_append (s : List Cell) (x : Cell)
    (h : s.length < MAX_HISTORY) :
    pushBounded s x = s ++ [x] := by
  unfold pushBounded
  dsimp only
  rw [if_neg]
  simp
  omega

lemma pushBounded_getLast? (s : List Cell) (x : Cell) :
    (pushBounded s x).getLast? = some x := by
  unfold pushBounded
  dsimp only
  split
  · rename_i hgt
    cases s with
    | nil => simp [MAX_HISTORY] at hgt
    | cons a t => simp [List.getLast?_concat]
  · exact List.getLast?_concat _

lemma pushBounded_overflow (s : List Cell) (x : Cell)
    (h : MAX_HISTORY ≤ s.length) :
    pushBounded s x = s.tail ++ [x] := by
  unfold pushBounded
  dsimp only
  rw [if_pos]
  · cases s with
    | nil => simp [MAX_HISTORY] at h
    | cons a t => simp
  · simp
    omega

lemma undo_stacks (st : EditorState) :
    (undo st).undoStack = st.undoStack.dropLast ∧
    (undo st).redoStack = pushBounded st.redoStack (st.undoStack.getLast?.getD none) := by
  unfold undo undoRun
  constructor <;> (dsimp only; split <;> simp [loadSnapshot])

lemma redo_empty (st : EditorState) (h : st.redoStack.length = 0) :
    redo st = st := by
  unfold redo redoRun
  rw [if_pos h]

lemma redo_stacks (st : EditorState) (h : ¬st.redoStack.length = 0) :
    (redo st).undoStack = pushBounded st.undoStack (st.redoStack.getLast?.getD none) ∧
    (redo st).redoStack = st.redoStack.dropLast := by
  unfold redo redoRun
  rw [if_neg h]
  constructor <;> (dsimp only; split <;> simp [loadSnapshot])

lemma saveHistory_stacks (st : EditorState) :
    (saveHistory st).undoStack = pushBounded st.undoStack (some (displayedSnapshot st)) ∧
    (saveHistory st).redoStack = st.redoStack := by
  unfold saveHistory
  exact ⟨rfl, rfl⟩

lemma applyOp_bounds (st : EditorState) (op : Op)
    (hu : st.undoStack.length ≤ MAX_HISTORY)
    (hr : st.redoStack.length ≤ MAX_HISTORY) :
    (applyOp st op).undoStack.length ≤ MAX_HISTORY ∧
    (applyOp st op).redoStack.length ≤ MAX_HISTORY := by
  cases op with
  | edit o =>
      have h := saveHistory_stacks { st with canvasObjects := o }
      refine ⟨?_, ?_⟩
      · rw [show applyOp st (Op.edit o) = saveHistory { st with canvasObjects := o } from rfl,
          h.1]
        exact pushBounded_length_le _ _ hu
      · rw [show applyOp st (Op.edit o) = saveHistory { st with canvasObjects := o } from rfl,
          h.2]
        exact hr
  | undo =>
      have h := undo_stacks st
      refine ⟨?_, ?_⟩
      · rw [show applyOp st Op.undo = undo st from rfl, h.1]
        have := List.length_dropLast st.undoStack
        omega
      · rw [show applyOp st Op.undo = undo st from rfl, h.2]
        exact pushBounded_length_le _ _ hr
  | redo =>
      by_cases h0 : st.redoStack.length = 0
      · rw [show applyOp st Op.redo = redo st from rfl, redo_empty st h0]
        exact ⟨hu, hr⟩
      · have h := redo_stacks st h0
        refine ⟨?_, ?_⟩
        · rw [show applyOp st Op.redo = redo st from rfl, h.1]
          exact pushBounded_length_le _ _ hu
        · rw [show applyOp st Op.redo = redo st from rfl, h.2]
          have := List.length_dropLast st.redoStack
          omega

/-- A sample snapshot, used for concrete instances of the theorems. -/
def snapA : Snapshot := ⟨"objsA", none⟩

/-- A second sample snapshot. -/
def snapB : Snapshot := ⟨"objsB", none⟩

/-- A sample editor state with `snapB` displayed and on top of the undo
stack, `snapA` below it, an empty redo stack, and `snapB` persisted. -/
def st0 : EditorState :=
  { undoStack := [some snapA, some snapB]
    redoStack := []
    storage := some snapB
    canvasObjects := "objsB"
    backgroundRef := none
    hasBackground := false
    canUndo := true
    canRedo := false }

/-- C1: the undo/redo history is bounded.  For every starting state whose two
stacks respect the bound (in particular the initial empty state) and every
sequence of editor operations, both stacks stay at `MAX_HISTORY = 20`
snapshots or fewer; moreover a push onto a stack that is at (or beyond) the
bound discards the oldest, front entry of that stack. -/
theorem history_bounded (st : EditorState) (ops : List Op)
    (hu : st.undoStack.length ≤ MAX_HISTORY)
    (hr : st.redoStack.length ≤ MAX_HISTORY) :
    ((applyOps st ops).undoStack.length ≤ MAX_HISTORY ∧
      (applyOps st ops).redoStack.length ≤ MAX_HISTORY) ∧
    ∀ (s : List Cell) (x : Cell), MAX_HISTORY ≤ s.length →
      pushBounded s x = s.tail ++ [x] := by
  constructor
  · induction ops generalizing st with
    | nil => exact ⟨hu, hr⟩
    | cons op rest ih =>
        have h := applyOp_bounds st op hu hr
        exact ih _ h.1 h.2
  · intro s x h
    exact pushBounded_overflow s x h

/-- Concrete instance of `history_bounded`: from `st0`, an edit followed by
an undo and a redo keeps both stacks within bound. -/
theorem history_bounded_witness :
    st0.undoStack.length ≤ MAX_HISTORY ∧
    st0.redoStack.length ≤ MAX_HISTORY ∧
    (((applyOps st0 [Op.edit "objsC", Op.undo, Op.redo]).undoStack.length ≤ MAX_HISTORY ∧
       (applyOps st0 [Op.edit "objsC", Op.undo, Op.redo]).redoStack.length ≤ MAX_HISTORY) ∧
      ∀ (s : List Cell) (x : Cell), MAX_HISTORY ≤ s.length →
        pushBounded s x = s.tail ++ [x]) :=
  ⟨by decide, by decide,
    history_bounded st0 [Op.edit "objsC", Op.undo, Op.redo] (by decide) (by decide)⟩

lemma undo_eq_of_shape (st : EditorState) (rest : List Cell) (prev cur : Snapshot)
    (h : st.undoStack = rest ++ [some prev, some cur]) :
    undo st =
      { st with
        undoStack := rest ++ [some prev]
        redoStack := pushBounded st.redoStack (some cur)
        canvasObjects := prev.objects
        backgroundRef := prev.background
        hasBackground := prev.background.isSome
        canUndo := decide (1 < (rest ++ [some prev]).length)
        canRedo := decide (0 < (pushBounded st.redoStack (some cur)).length) } := by
  have h2 : st.undoStack = (rest ++ [some prev]) ++ [some cur] := by
    rw [h]
    simp
  have hLast : st.undoStack.getLast? = some (some cur) := by
    rw [h2]
    exact List.getLast?_concat _
  have hDrop : st.undoStack.dropLast = rest ++ [some prev] := by
    rw [h2]
    exact List.dropLast_concat
  unfold undo undoRun
  simp only [hLast, hDrop, List.getLast?_concat, Option.getD_some, loadSnapshot]

lemma redo_eq_of_shape (st : EditorState) (rest : List Cell) (nxt : Snapshot)
    (h : st.redoStack = rest ++ [some nxt]) :
    redo st =
      { st with
        undoStack := pushBounded st.undoStack (some nxt)
        redoStack := rest
        canvasObjects := nxt.objects
        backgroundRef := nxt.background
        hasBackground := nxt.background.isSome
        canUndo := decide (1 < (pushBounded st.undoStack (some nxt)).length)
        canRedo := decide (0 < rest.length) } := by
  have hLast : st.redoStack.getLast? = some (some nxt) := by
    rw [h]
    exact List.getLast?_concat _
  have hDrop : st.redoStack.dropLast = rest := by
    rw [h]
    exact List.dropLast_concat
  have hne : ¬st.redoStack.length = 0 := by
    rw [h]
    simp
  unfold redo redoRun
  rw [if_neg hne]
  simp only [hLast, hDrop, Option.getD_some, loadSnapshot]

/-- C2: two-stack undo/redo semantics.  Whenever the undo stack holds more
than one snapshot, `undo` pops its top snapshot, pushes it onto the redo
stack and makes the new top of the undo stack the displayed canvas state;
whenever the redo stack is non-empty, `redo` pops its top snapshot, pushes it
onto the undo stack and makes that snapshot the displayed canvas state. -/
theorem two_stack_semantics (st : EditorState) :
    (∀ (rest : List Cell) (prev cur : Snapshot),
        st.undoStack = rest ++ [some prev, some cur] →
        (undo st).undoStack = rest ++ [some prev] ∧
        (undo st).redoStack = pushBounded st.redoStack (some cur) ∧
        displayedSnapshot (undo st) = prev) ∧
    (∀ (rest : List Cell) (nxt : Snapshot),
        st.redoStack = rest ++ [some nxt] →
        (redo st).redoStack = rest ∧
        (redo st).undoStack = pushBounded st.undoStack (some nxt) ∧
        displayedSnapshot (redo st) = nxt) := by
  constructor
  · intro rest prev cur h
    rw [undo_eq_of_shape st rest prev cur h]
    exact ⟨rfl, rfl, rfl⟩
  · intro rest nxt h
    rw [redo_eq_of_shape st rest nxt h]
    exact ⟨rfl, rfl, rfl⟩

/-- Concrete instance of `two_stack_semantics` at `st0`: undoing pops
`snapB` onto the redo stack and displays `snapA`; from the resulting state,
redoing pops `snapB` back and displays it. -/
theorem two_stack_semantics_witness :
    ((undo st0).undoStack = [] ++ [some snapA] ∧
      (undo st0).redoStack = pushBounded st0.redoStack (some snapB) ∧
      displayedSnapshot (undo st0) = snapA) ∧
    ((redo (undo st0)).redoStack = [] ∧
      (redo (undo st0)).undoStack = pushBounded (undo st0).undoStack (some snapB) ∧
      displayedSnapshot (redo (undo st0)) = snapB) :=
  ⟨(two_stack_semantics st0).1 [] snapA snapB (by decide),
    (two_stack_semantics (undo st0)).2 [] snapB (by decide)⟩

/-- C3: undo followed by redo is an identity on the history state.  In any
state whose undo stack holds at least two snapshots with the top one being
the displayed snapshot (the invariant the editor maintains, cf. the spec's
"the currently displayed canvas state, i.e. the top of the undo stack") and
whose stacks are below capacity, `undo` then `redo` restores the undo stack,
the redo stack and the displayed snapshot exactly. -/
theorem undo_redo_identity (st : EditorState) (rest : List Cell)
    (prev cur : Snapshot)
    (hshape : st.undoStack = rest ++ [some prev, some cur])
    (hu : st.undoStack.length < MAX_HISTORY)
    (hr : st.redoStack.length < MAX_HISTORY)
    (hdisp : displayedSnapshot st = cur) :
    (redo (undo st)).undoStack = st.undoStack ∧
    (redo (undo st)).redoStack = st.redoStack ∧
    displayedSnapshot (redo (undo st)) = displayedSnapshot st := by
  have h1 := undo_eq_of_shape st rest prev cur hshape
  have hr1 : (undo st).redoStack = st.redoStack ++ [some cur] := by
    rw [h1]
    exact pushBounded_eq_append _ _ hr
  have h2 := redo_eq_of_shape (undo st) st.redoStack cur hr1
  have hu1 : (undo st).undoStack = rest ++ [some prev] := by
    rw [h1]
  have hlen : (rest ++ [some prev]).length < MAX_HISTORY := by
    have : st.undoStack.length = rest.length + 2 := by
      rw [hshape]
      simp
    simp only [List.length_append, List.length_cons, List.length_nil]
    omega
  have hpush : pushBounded (undo st).undoStack (some cur) = st.undoStack := by
    rw [hu1, pushBounded_eq_append _ _ hlen, hshape]
    simp
  refine ⟨?_, ?_, ?_⟩
  · rw [h2]
    exact hpush
  · rw [h2]
  · rw [h2]
    simp only [displayedSnapshot, ← hdisp]

/-- Concrete instance of `undo_redo_identity` at `st0`. -/
theorem undo_redo_identity_witness :
    (redo (undo st0)).undoStack = st0.undoStack ∧
    (redo (undo st0)).redoStack = st0.redoStack ∧
    displayedSnapshot (redo (undo st0)) = displayedSnapshot st0 :=
  undo_redo_identity st0 [] snapA snapB (by decide) (by decide) (by decide)
    (by decide)

/-- C4 counterexample: starting from `st0`, where the persisted snapshot
matches the displayed state, performing `undo` changes the displayed state
(the new top of the undo stack) but leaves `localStorage["canvasDesign"]`
holding the pre-undo snapshot, so the stored snapshot does not equal the
snapshot of the displayed state after this undo. -/
theorem storage_not_synced_on_undo :
    st0.storage = some (displayedSnapshot st0) ∧
    (undo st0).undoStack.getLast? = some (some (displayedSnapshot (undo st0))) ∧
    (undo st0).storage ≠ some (displayedSnapshot (undo st0)) := by decide

/-- C4 amended: only a recorded edit persists the snapshot.  After
`saveHistory`, the stored snapshot equals the snapshot of the displayed
canvas state, which is also the new top of the undo stack; `undo` and `redo`
change the displayed state but leave the stored snapshot unchanged (so until
the next edit it may differ from the displayed state). -/
theorem storage_persistence (st : EditorState) :
    ((saveHistory st).storage = some (displayedSnapshot (saveHistory st)) ∧
      (saveHistory st).undoStack.getLast? =
        some (some (displayedSnapshot (saveHistory st)))) ∧
    (undo st).storage = st.storage ∧
    (redo st).storage = st.storage := by
  refine ⟨⟨rfl, ?_⟩, ?_, ?_⟩
  · exact pushBounded_getLast? _ _
  · unfold undo undoRun
    dsimp only
    split <;> simp [loadSnapshot]
  · unfold redo redoRun
    dsimp only
    split
    · rfl
    · split <;> simp [loadSnapshot]

lemma displayScale_pos (W : ℚ) (hW : 0 < W) : 0 < displayScale W := by
  unfold displayScale
  split
  · positivity
  · norm_num

/-- C5: export produces a flattened image at the original upload resolution.
For a background of original size `(W, H)` displayed at scale
`displayScale W = min 1 (600 / W)` (so the canvas is `W * s` by `H * s`),
`handleExport` builds an export canvas of dimensions exactly `W` by `H`,
multiplies each object's `scaleX` and `left` by `W` divided by the displayed
width and its `scaleY` and `top` by `H` divided by the displayed height, so
every object keeps its relative position. -/
theorem export_original_resolution (W H : ℚ) (hW : 0 < W) (hH : 0 < H)
    (objs : List FabObject) :
    displayScale W = min 1 (600 / W) ∧
    (handleExport W H (W * displayScale W) (H * displayScale W) objs).width = W ∧
    (handleExport W H (W * displayScale W) (H * displayScale W) objs).height = H ∧
    (handleExport W H (W * displayScale W) (H * displayScale W) objs).objects =
      objs.map
        (cloneScaled (W / (W * displayScale W)) (H / (H * displayScale W))) ∧
    ∀ o ∈ objs,
      (cloneScaled (W / (W * displayScale W)) (H / (H * displayScale W))
            o).left.getD 0 / W =
          o.left.getD 0 / (W * displayScale W) ∧
        (cloneScaled (W / (W * displayScale W)) (H / (H * displayScale W))
            o).top.getD 0 / H =
          o.top.getD 0 / (H * displayScale W) := by
  have hs : 0 < displayScale W := displayScale_pos W hW
  refine ⟨?_, rfl, rfl, rfl, ?_⟩
  · unfold displayScale
    split
    · rename_i hgt
      rw [min_eq_right]
      rw [div_le_one hW]
      linarith
    · rename_i hle
      rw [min_eq_left]
      rw [le_div_iff₀ hW]
      push_neg at hle
      linarith
  · intro o ho
    have hWne : W ≠ 0 := ne_of_gt hW
    have hHne : H ≠ 0 := ne_of_gt hH
    have hsne : displayScale W ≠ 0 := ne_of_gt hs
    constructor
    · show o.left.getD 0 * (W / (W * displayScale W)) / W =
        o.left.getD 0 / (W * displayScale W)
      field_simp
      ring
    · show o.top.getD 0 * (H / (H * displayScale W)) / H =
        o.top.getD 0 / (H * displayScale W)
      field_simp
      ring

/-- Concrete instance of `export_original_resolution`: an 800 by 500 image is
displayed at scale 3/4 (canvas 600 by 375) and exported back at 800 by
500. -/
theorem export_original_resolution_witness :
    displayScale 800 = min 1 (600 / 800) ∧
    (handleExport 800 500 (800 * displayScale 800) (500 * displayScale 800)
        [⟨some 1, some 1, some 40, some 30⟩]).width = 800 ∧
    (handleExport 800 500 (800 * displayScale 800) (500 * displayScale 800)
        [⟨some 1, some 1, some 40, some 30⟩]).height = 500 ∧
    (handleExport 800 500 (800 * displayScale 800) (500 * displayScale 800)
        [⟨some 1, some 1, some 40, some 30⟩]).objects =
      [⟨some 1, some 1, some 40, some 30⟩].map
        (cloneScaled (800 / (800 * displayScale 800))
          (500 / (500 * displayScale 800))) ∧
    ∀ o ∈ [(⟨some 1, some 1, some 40, some 30⟩ : FabObject)],
      (cloneScaled (800 / (800 * displayScale 800))
            (500 / (500 * displayScale 800)) o).left.getD 0 / 800 =
          o.left.getD 0 / (800 * displayScale 800) ∧
        (cloneScaled (800 / (800 * displayScale 800))
            (500 / (500 * displayScale 800)) o).top.getD 0 / 500 =
          o.top.getD 0 / (500 * displayScale 800) :=
  export_original_resolution 800 500 (by norm_num) (by norm_num)
    [⟨some 1, some 1, some 40, some 30⟩]

/-- A sample editor state whose undo stack holds a single snapshot, where the
Undo control is disabled. -/
def stSmall : EditorState := { st0 with undoStack := [some snapA] }

/-- C8: undo is safe only under its enabling guard.  `undo` unconditionally
pops the undo stack and parses the new top entry, so when the stack holds at
most one snapshot the parse reads a missing element and fails; when the stack
holds more than one snapshot (the condition `canUndo` under which the Undo
control is enabled) and its entries are recorded snapshots, the failing
branch is unreachable and the parse succeeds. -/
theorem undo_guard_safety (st : EditorState) :
    (st.undoStack.length ≤ 1 → (undoRun st).2 = false) ∧
    ((∀ c ∈ st.undoStack, c.isSome = true) → 1 < st.undoStack.length →
      (undoRun st).2 = true) := by
  constructor
  · intro h
    have hdrop : st.undoStack.dropLast = [] := by
      have h1 := List.length_dropLast st.undoStack
      have h2 : st.undoStack.dropLast.length = 0 := by omega
      exact List.eq_nil_of_length_eq_zero h2
    unfold undoRun
    dsimp only
    rw [hdrop]
    rfl
  · intro hall hlen
    obtain ⟨c, hc⟩ : ∃ c, st.undoStack.dropLast.getLast? = some c := by
      cases h : st.undoStack.dropLast.getLast? with
      | none =>
          exfalso
          rw [List.getLast?_eq_none_iff] at h
          have h1 := List.length_dropLast st.undoStack
          rw [h] at h1
          simp at h1
          omega
      | some c => exact ⟨c, rfl⟩
    have hmemdrop : c ∈ st.undoStack.dropLast := by
      obtain ⟨hne, hceq⟩ := List.mem_getLast?_eq_getLast (Option.mem_def.mpr hc)
      rw [hceq]
      exact List.getLast_mem hne
    have hmem : c ∈ st.undoStack := List.dropLast_subset st.undoStack hmemdrop
    obtain ⟨x, rfl⟩ := Option.isSome_iff_exists.mp (hall c hmem)
    unfold undoRun
    dsimp only
    rw [hc]

/-- Concrete instance of `undo_guard_safety`: on a one-snapshot stack the
parse inside `undo` fails; on the two-snapshot stack of `st0` it
succeeds. -/
theorem undo_guard_safety_witness :
    (undoRun stSmall).2 = false ∧ (undoRun st0).2 = true :=
  ⟨(undo_guard_safety stSmall).1 (by decide),
    (undo_guard_safety st0).2 (by decide) (by decide)⟩

/-- C9: recording a new edit does not touch the redo stack.  `saveHistory`
leaves the redo stack, the canvas contents, the background reference and the
`hasBackground` flag unchanged, and recomputes `canRedo` as emptiness of the
unchanged redo stack, so Redo stays enabled exactly when the redo stack was
non-empty before the edit. -/
theorem saveHistory_frame (st : EditorState) :
    (saveHistory st).redoStack = st.redoStack ∧
    (saveHistory st).canvasObjects = st.canvasObjects ∧
    (saveHistory st).backgroundRef = st.backgroundRef ∧
    (saveHistory st).hasBackground = st.hasBackground ∧
    (saveHistory st).canRedo = decide (0 < st.redoStack.length) :=
  ⟨rfl, rfl, rfl, rfl, rfl⟩

/-- C10: reset clears all editor state.  After `reset`, both stacks are
empty, the background reference is gone, `localStorage["canvasDesign"]` is
removed, and both Undo and Redo are disabled. -/
theorem reset_clears (st : EditorState) :
    (reset st).undoStack = [] ∧
    (reset st).redoStack = [] ∧
    (reset st).backgroundRef = none ∧
    (reset st).storage = none ∧
    (reset st).hasBackground = false ∧
    (reset st).canUndo = false ∧
    (reset st).canRedo = false :=
  ⟨rfl, rfl, rfl, rfl, rfl, rfl, rfl⟩

end Editor

namespace Wallet

/-- A disconnected wallet state (no provider, no account). -/
def stW0 : WalletState :=
  { web3 := false
    account := none
    sendForm := initialSendForm
    transactions := []
    message := ⟨"", ""⟩
    loading := false }

/-- A connected wallet state with a filled-in send form. -/
def stW1 : WalletState :=
  { web3 := true
    account := some "0xsender"
    sendForm := ⟨"0xrecipient", "1.5", "20"⟩
    transactions := []
    message := ⟨"", ""⟩
    loading := false }

/-- C6: `sendTransaction` validates the form before issuing any RPC.  If the
wallet is not connected, the recipient or amount field is empty, or the
recipient is not a valid address, it shows an error message, issues no RPC
call to the provider, and leaves the send form and the transaction-history
list unchanged. -/
theorem send_validation (st : WalletState) (isAddress : String → Bool)
    (now : String) (outcome : SendOutcome)
    (h : ¬(st.web3 = true ∧ st.account.isSome = true) ∨
      st.sendForm.«to» = "" ∨ st.sendForm.amount = "" ∨
      isAddress st.sendForm.«to» = false) :
    (sendTransaction st isAddress now outcome).1.message.type = "error" ∧
    (sendTransaction st isAddress now outcome).2 = [] ∧
    (sendTransaction st isAddress now outcome).1.sendForm = st.sendForm ∧
    (sendTransaction st isAddress now outcome).1.transactions =
      st.transactions := by
  unfold sendTransaction
  split
  · exact ⟨rfl, rfl, rfl, rfl⟩
  · split
    · exact ⟨rfl, rfl, rfl, rfl⟩
    · split
      · exact ⟨rfl, rfl, rfl, rfl⟩
      · rename_i h1 h2 h3
        exfalso
        have hw : st.web3 = true := by
          cases hb : st.web3
          · exact absurd (by simp [hb]) h1
          · rfl
        have hs : st.account.isSome = true := by
          cases ha : st.account
          · exact absurd (by simp [ha]) h1
          · simp
        have hton : ¬st.sendForm.«to» = "" := by
          intro he
          exact h2 (by simp [he])
        have hamn : ¬st.sendForm.amount = "" := by
          intro he
          exact h2 (by simp [he])
        have haddr : isAddress st.sendForm.«to» = true := by
          cases hb : isAddress st.sendForm.«to»
          · exact absurd (by simp [hb]) h3
          · rfl
        rcases h with h | h | h | h
        · exact h ⟨hw, hs⟩
        · exact hton h
        · exact hamn h
        · rw [haddr] at h
          exact absurd h (by decide)

/-- Concrete instance of `send_validation`: on the disconnected state `stW0`
the send is rejected with an error, no RPC is issued and nothing changes. -/
theorem send_validation_witness :
    (sendTransaction stW0 (fun _ => true) "t0" (SendOutcome.ok "0xh")).1.message.type
        = "error" ∧
      (sendTransaction stW0 (fun _ => true) "t0" (SendOutcome.ok "0xh")).2 = [] ∧
      (sendTransaction stW0 (fun _ => true) "t0" (SendOutcome.ok "0xh")).1.sendForm
        = stW0.sendForm ∧
      (sendTransaction stW0 (fun _ => true) "t0" (SendOutcome.ok "0xh")).1.transactions
        = stW0.transactions :=
  send_validation stW0 (fun _ => true) "t0" (SendOutcome.ok "0xh") (by decide)

/-- C7: a successful native-currency transfer updates the panel state.  When
the connected, validated send succeeds with receipt hash `txHash`, exactly
one record with that hash, the recipient, the amount, type `"sent"` and the
timestamp is prepended to the history list, the form is reset to its initial
values, a success message is shown, and a balance-refreshing `getBalance`
call is issued; when the send RPC throws, the history list and the form are
unchanged and an error message is shown. -/
theorem send_success_updates (st : WalletState) (isAddress : String → Bool)
    (now txHash err : String)
    (hconn : st.web3 = true) (hacct : st.account.isSome = true)
    (hto : ¬st.sendForm.«to» = "") (ham : ¬st.sendForm.amount = "")
    (haddr : isAddress st.sendForm.«to» = true) :
    ((sendTransaction st isAddress now (SendOutcome.ok txHash)).1.transactions =
        ⟨txHash, st.sendForm.«to», st.sendForm.amount, "sent", now⟩ ::
          st.transactions ∧
      (sendTransaction st isAddress now (SendOutcome.ok txHash)).1.sendForm =
        initialSendForm ∧
      (sendTransaction st isAddress now (SendOutcome.ok txHash)).1.message =
        ⟨"success", "Transaction sent successfully! Hash: " ++ txHash⟩ ∧
      RpcCall.getBalance ∈
        (sendTransaction st isAddress now (SendOutcome.ok txHash)).2) ∧
    ((sendTransaction st isAddress now (SendOutcome.sendFailed err)).1.transactions =
        st.transactions ∧
      (sendTransaction st isAddress now (SendOutcome.sendFailed err)).1.sendForm =
        st.sendForm ∧
      (sendTransaction st isAddress now
          (SendOutcome.sendFailed err)).1.message.type = "error") := by
  obtain ⟨a, ha⟩ := Option.isSome_iff_exists.mp hacct
  have hg1 : ¬((!st.web3 || st.account.isNone) = true) := by
    simp [hconn, ha]
  have hg2 : ¬((st.sendForm.«to» = "" || st.sendForm.amount = "") = true) := by
    simp [hto, ham]
  have hg3 : ¬((!isAddress st.sendForm.«to») = true) := by
    simp [haddr]
  simp only [sendTransaction, if_neg hg1, if_neg hg2, if_neg hg3]
  simp [showMessage]

/-- Concrete instance of `send_success_updates` at the connected state
`stW1`. -/
theorem send_success_updates_witness :
    ((sendTransaction stW1 (fun _ => true) "t1" (SendOutcome.ok "0xh")).1.transactions =
        ⟨"0xh", stW1.sendForm.«to», stW1.sendForm.amount, "sent", "t1"⟩ ::
          stW1.transactions ∧
      (sendTransaction stW1 (fun _ => true) "t1" (SendOutcome.ok "0xh")).1.sendForm =
        initialSendForm ∧
      (sendTransaction stW1 (fun _ => true) "t1" (SendOutcome.ok "0xh")).1.message =
        ⟨"success", "Transaction sent successfully! Hash: " ++ "0xh"⟩ ∧
      RpcCall.getBalance ∈
        (sendTransaction stW1 (fun _ => true) "t1" (SendOutcome.ok "0xh")).2) ∧
    ((sendTransaction stW1 (fun _ => true) "t1"
          (SendOutcome.sendFailed "boom")).1.transactions = stW1.transactions ∧
      (sendTransaction stW1 (fun _ => true) "t1"
          (SendOutcome.sendFailed "boom")).1.sendForm = stW1.sendForm ∧
      (sendTransaction stW1 (fun _ => true) "t1"
          (SendOutcome.sendFailed "boom")).1.message.type = "error") :=
  send_success_updates stW1 (fun _ => true) "t1" "0xh" "boom" (by decide)
    (by decide) (by decide) (by decide) (by decide)

end Wallet
